import Mathlib

/-!
Shallow embedding of the scheduled batch-download orchestration engine
(`main.py` and `web_ui.py` of the qobuz favorites downloader).

Items are identified by their numeric ids (`Nat`).  External collaborators
(the remote catalog, the download client, the worker threads' timing) are
modelled as oracles passed in explicitly; machine effects on the process-wide
`app_state` dictionary are modelled by threading an `AppState` record, and
writes performed by `batch_download` to `app_state["stats"]["last_error"]`
are additionally recorded as an explicit write trace.
-/

namespace QobuzFav

/-- Observable behaviour of one submitted unit of work, as seen by the
`future.result(timeout=600)` call in `batch_download`:
`done b` means the worker function `download_item` returned `(b, item)`
within the timeout; `timeout` means `future.result` raised
`concurrent.futures.TimeoutError` (whose `str` is the empty string). -/
inductive WorkOutcome where
  | done (success : Bool)
  | timeout
deriving DecidableEq, Repr

/-- Accumulated observable state of one `batch_download` invocation:
the two result lists (`successful_items`, `failed_items`), the sequence of
writes the executor performs to `app_state["stats"]["last_error"]`, the
chunks processed (in order), and for each chunk whether the inter-chunk
cool-down `time.sleep(3)` ran after it. -/
structure BatchAcc where
  successful : List Nat
  failed : List Nat
  lastErrorWrites : List String
  chunks : List (List Nat)
  delays : List Bool
deriving DecidableEq, Repr

/-- The `for future in futures` result-collection loop over one chunk:
futures are polled in submission order; a `(True, item)` result appends to
`successful_items`, a `(False, item)` result appends to `failed_items`, and
a raised `TimeoutError` is caught by `except Exception` which only writes
`str(e)` (the empty string) to `app_state["stats"]["last_error"]`. -/
def runChunk (outcome : Nat → WorkOutcome) (acc : BatchAcc) : List Nat → BatchAcc
  | [] => acc
  | item :: rest =>
    match outcome item with
    | .done true => runChunk outcome { acc with successful := acc.successful ++ [item] } rest
    | .done false => runChunk outcome { acc with failed := acc.failed ++ [item] } rest
    | .timeout =>
        runChunk outcome { acc with lastErrorWrites := acc.lastErrorWrites ++ [""] } rest

/-- The `for i in range(0, len(tasks), effective_batch_size)` loop of
`batch_download`, with the effective batch size written `e + 1` (the caller
establishes it is positive, since `range` with step 0 raises).  `n` is
`len(tasks)`; `i` is the running start index; `rem` is `tasks[i:]`.  The
`fuel` argument only bounds the number of iterations so the recursion is
structural; the caller passes `n`, which is always sufficient because every
iteration consumes at least one task. -/
def batchLoop (outcome : Nat → WorkOutcome) (e n : Nat) :
    Nat → Nat → List Nat → BatchAcc → BatchAcc
  | 0, _, _, acc => acc
  | _ + 1, _, [], acc => acc
  | fuel + 1, i, x :: xs, acc =>
    let chunk := (x :: xs).take (e + 1)
    let acc1 := runChunk outcome acc chunk
    let acc2 := { acc1 with
      chunks := acc1.chunks ++ [chunk],
      delays := acc1.delays ++ [decide (i + (e + 1) < n)] }
    batchLoop outcome e n fuel (i + (e + 1)) ((x :: xs).drop (e + 1)) acc2

/-- `batch_download(qobuz_dl, user, items, is_album, max_workers,
current_batch_size)` from `main.py`.  The download client and user session
are abstracted into the `outcome` oracle (what `future.result` observes for
each item).  `Except.error` models an exception escaping to the caller:
`ThreadPoolExecutor(max_workers=0)` raises `ValueError`, and
`range(0, len(tasks), 0)` — which happens exactly when
`min(current_batch_size, len(items)) == 0`, i.e. when `items` is empty or
`current_batch_size` is zero — raises `ValueError` as well. -/
def batch_download (outcome : Nat → WorkOutcome) (items : List Nat)
    (max_workers current_batch_size : Nat) : Except String BatchAcc :=
  if max_workers = 0 then
    .error "ValueError: max_workers must be greater than 0"
  else
    match min current_batch_size items.length with
    | 0 => .error "ValueError: range() arg 3 must not be zero"
    | e + 1 =>
        .ok (batchLoop outcome e items.length items.length 0 items
          { successful := [], failed := [], lastErrorWrites := [],
            chunks := [], delays := [] })

/-- One response of the remote catalog client to a
`user.favorites_get(fav_type, limit, offset)` request: either a page of
items (possibly empty — an empty page ends pagination) or a raised
request exception. -/
inductive Page where
  | page (items : List Nat)
  | exn (msg : String)
deriving DecidableEq, Repr

/-- The `while True` pagination loop body of `get_user_favorites`, before
the surrounding `try`/`except`: `Except.error` carries the accumulated
favorites at the moment a request raised, together with the message.
`remote limit offset` is the oracle for `user.favorites_get`.  `fuel`
bounds the number of iterations (the Python loop terminates only when the
remote eventually yields an empty page or raises). -/
def fetch_pages (remote : Nat → Nat → Page) :
    Nat → Nat → List Nat → Except (List Nat × String) (List Nat)
  | 0, _, acc => .ok acc
  | fuel + 1, offset, acc =>
    match remote 50 offset with
    | .exn msg => .error (acc, msg)
    | .page [] => .ok acc
    | .page (f :: fs) => fetch_pages remote fuel (offset + 50) (acc ++ (f :: fs))

/-- The `except Exception` handler around the pagination loop: on a raised
request it logs and falls through to `return favorites`, so the
accumulated partial list is returned either way. -/
def unwrapFetch : Except (List Nat × String) (List Nat) → List Nat
  | .ok favs => favs
  | .error (favs, _) => favs

/-- `get_user_favorites(user, fav_type)` from `main.py`: page size 50,
offsets 0, 50, 100, …; the `except Exception` around the loop logs the
error and falls through to `return favorites`, so nothing propagates to
the caller. -/
def get_user_favorites (remote : Nat → Nat → Page) (fuel : Nat) : List Nat :=
  unwrapFetch (fetch_pages remote fuel 0 [])

/-- The trace of `(limit, offset)` arguments `get_user_favorites` passes to
`user.favorites_get`, in order. -/
def fetch_calls (remote : Nat → Nat → Page) : Nat → Nat → List (Nat × Nat)
  | 0, _ => []
  | fuel + 1, offset =>
    (50, offset) ::
      match remote 50 offset with
      | .page (_ :: _) => fetch_calls remote fuel (offset + 50)
      | _ => []

/-- The items of a page (a raised request has no items). -/
def pageItems : Page → List Nat
  | .page l => l
  | .exn _ => []

/-- Pagination for `remote` stops at request index `k` (offset `50 * k`):
every earlier request returned a non-empty page, and request `k` returned
an empty page or raised. -/
def stopsAt (remote : Nat → Nat → Page) (k : Nat) : Prop :=
  (∀ j, j < k → ∃ x xs, remote 50 (50 * j) = Page.page (x :: xs)) ∧
  (remote 50 (50 * k) = Page.page [] ∨ ∃ m, remote 50 (50 * k) = Page.exn m)

/-- The `app_state["stats"]` sub-dictionary of `main.py`. -/
structure Stats where
  tracks_downloaded : Nat
  albums_downloaded : Nat
  artists_downloaded : Nat
  tracks_failed : Nat
  albums_failed : Nat
  artists_failed : Nat
  last_error : Option String
deriving DecidableEq, Repr

/-- The `app_state["favorites_count"]` sub-dictionary of `main.py`. -/
structure FavoritesCount where
  tracks : Nat
  albums : Nat
  artists : Nat
deriving DecidableEq, Repr

/-- The process-wide `app_state` dictionary of `main.py` (the Status
Store).  Timestamps are modelled as naturals. -/
structure AppState where
  last_run : Option Nat
  next_run : Option Nat
  current_status : String
  stats : Stats
  current_item : Option Nat
  favorites_count : FavoritesCount
deriving DecidableEq, Repr

/-- The initial value of `app_state` (lines 67–82 of `main.py`). -/
def initial_app_state : AppState :=
  { last_run := none
    next_run := none
    current_status := "idle"
    stats :=
      { tracks_downloaded := 0, albums_downloaded := 0, artists_downloaded := 0
        tracks_failed := 0, albums_failed := 0, artists_failed := 0
        last_error := none }
    current_item := none
    favorites_count := { tracks := 0, albums := 0, artists := 0 } }

/-- Replay onto an `AppState` the writes `batch_download` performed to
`app_state["stats"]["last_error"]` during its run. -/
def applyBatchWrites (s : AppState) (writes : List String) : AppState :=
  writes.foldl (fun t w => { t with stats := { t.stats with last_error := some w } }) s

/-- The environment-sourced configuration the orchestration reads
(`MAX_WORKERS_*`, `BATCH_SIZE`). -/
structure Config where
  max_workers_tracks : Nat
  max_workers_albums : Nat
  max_workers_artists : Nat
  batch_size : Nat

/-- External-world oracle for one `process_favorites` run: whether the
client initialization / authentication block raises (and with which
message), the remote catalog's pagination responses per category, the
pagination fuel, the per-item worker outcomes per category, and the
current wall-clock time for `time.time()`. -/
structure Env where
  authFault : Option String
  remoteTracks : Nat → Nat → Page
  remoteAlbums : Nat → Nat → Page
  remoteArtists : Nat → Nat → Page
  fetchFuel : Nat
  outcomeTracks : Nat → WorkOutcome
  outcomeAlbums : Nat → WorkOutcome
  outcomeArtists : Nat → WorkOutcome
  now : Nat

/-- The cross-thread shared mutable state: the Status Store `app_state`
and the `job_running` flag (`threading.Event`). -/
structure World where
  state : AppState
  job_running : Bool
deriving DecidableEq, Repr

/-- The `if favorite_tracks:` block of `process_favorites`:
set the phase, run `batch_download`, replay its `last_error` writes, and
accumulate the per-run counts into `stats` with `+=`.  An exception from
`batch_download` aborts the block, carrying the state reached so far. -/
def trackStep (cfg : Config) (env : Env) (favs : List Nat) (s : AppState) :
    Except (String × AppState) AppState :=
  if favs.isEmpty then .ok s
  else
    let s1 := { s with current_status := "downloading tracks" }
    match batch_download env.outcomeTracks favs cfg.max_workers_tracks cfg.batch_size with
    | .error e => .error (e, s1)
    | .ok acc =>
        let s2 := applyBatchWrites s1 acc.lastErrorWrites
        .ok { s2 with stats := { s2.stats with
          tracks_downloaded := s2.stats.tracks_downloaded + acc.successful.length,
          tracks_failed := s2.stats.tracks_failed + acc.failed.length } }

/-- The `if favorite_albums:` block of `process_favorites`. -/
def albumStep (cfg : Config) (env : Env) (favs : List Nat) (s : AppState) :
    Except (String × AppState) AppState :=
  if favs.isEmpty then .ok s
  else
    let s1 := { s with current_status := "downloading albums" }
    match batch_download env.outcomeAlbums favs cfg.max_workers_albums cfg.batch_size with
    | .error e => .error (e, s1)
    | .ok acc =>
        let s2 := applyBatchWrites s1 acc.lastErrorWrites
        .ok { s2 with stats := { s2.stats with
          albums_downloaded := s2.stats.albums_downloaded + acc.successful.length,
          albums_failed := s2.stats.albums_failed + acc.failed.length } }

/-- The `if favorite_artists:` block of `process_favorites`. -/
def artistStep (cfg : Config) (env : Env) (favs : List Nat) (s : AppState) :
    Except (String × AppState) AppState :=
  if favs.isEmpty then .ok s
  else
    let s1 := { s with current_status := "downloading artists" }
    match batch_download env.outcomeArtists favs cfg.max_workers_artists cfg.batch_size with
    | .error e => .error (e, s1)
    | .ok acc =>
        let s2 := applyBatchWrites s1 acc.lastErrorWrites
        .ok { s2 with stats := { s2.stats with
          artists_downloaded := s2.stats.artists_downloaded + acc.successful.length,
          artists_failed := s2.stats.artists_failed + acc.failed.length } }

/-- The three `downloading` blocks of `process_favorites` followed by its
two closing assignments (`current_status = "idle"`, `last_run = time.time()`,
with `t` the value of `time.time()`); an exception from any block aborts
the rest, carrying the `app_state` reached when it was raised. -/
def downloadStages (cfg : Config) (env : Env) (favT favA favR : List Nat)
    (t : Nat) (s : AppState) : Except (String × AppState) AppState :=
  match trackStep cfg env favT s with
  | .error r => .error r
  | .ok s1 =>
    match albumStep cfg env favA s1 with
    | .error r => .error r
    | .ok s2 =>
      match artistStep cfg env favR s2 with
      | .error r => .error r
      | .ok s3 => .ok { s3 with current_status := "idle", last_run := some t }

/-- The body of the `try:` of `process_favorites`, up to but not including
the `except`/`finally`; `Except.error` carries the exception message and
the `app_state` reached when it was raised. -/
def pf_body (cfg : Config) (env : Env) (s0 : AppState) :
    Except (String × AppState) AppState :=
  let sInit := { s0 with current_status := "initializing" }
  match env.authFault with
  | some e => .error (e, sInit)
  | none =>
    let sFetch := { sInit with current_status := "fetching favorites" }
    let favorite_tracks := get_user_favorites env.remoteTracks env.fetchFuel
    let favorite_albums := get_user_favorites env.remoteAlbums env.fetchFuel
    let favorite_artists := get_user_favorites env.remoteArtists env.fetchFuel
    let sCnt := { sFetch with favorites_count :=
      { tracks := favorite_tracks.length
        albums := favorite_albums.length
        artists := favorite_artists.length } }
    downloadStages cfg env favorite_tracks favorite_albums favorite_artists env.now sCnt

/-- `process_favorites()` from `main.py`: the `try` body, the
`except Exception` handler (record `last_error`, set status `"error"`),
and the `finally: job_running.clear()`. -/
def process_favorites (cfg : Config) (env : Env) (w : World) : World :=
  let s :=
    match pf_body cfg env w.state with
    | .ok s => s
    | .error (e, s) =>
        { s with stats := { s.stats with last_error := some e },
                 current_status := "error" }
  { state := s, job_running := false }

/-- `job()` from `main.py`: skip if `job_running` is set, otherwise set the
flag, run `process_favorites` (which never raises — its own handler and
`finally` absorb everything), and clear the flag again in `finally`. -/
def job (cfg : Config) (env : Env) (w : World) : World :=
  if w.job_running then w
  else
    let w1 := { w with job_running := true }
    let w2 := process_favorites cfg env w1
    { w2 with job_running := false }

/-- `POST /api/trigger` (`trigger_job` in `web_ui.py`), for the app as
created by `main.py` (`job_function = job`, never `None`): reply
`(409, success=False)` when `job_running` is set, otherwise reply
`(200, success=True)` and start a `job` run. -/
def trigger_job (cfg : Config) (env : Env) (w : World) : (Nat × Bool) × World :=
  if w.job_running then ((409, false), w)
  else ((200, true), job cfg env w)

/-- Behaviour of one `qobuz_dl.download_from_id` or `user.favorites_del`
call: returns normally or raises. -/
inductive CallOutcome where
  | ok
  | exn (msg : String)
deriving DecidableEq, Repr

/-- Behaviour of the two external calls `download_item` makes for an item. -/
structure ItemBehavior where
  download : CallOutcome
  favorites_del : CallOutcome

/-- One external call performed by `download_item`, for the call trace. -/
inductive ItemCall where
  | download (id : Nat)
  | favorites_del (id : Nat)
deriving DecidableEq, Repr

/-- `download_item(args)` from `main.py`: run `download_from_id`, then
`favorites_del`; any exception from either is caught and `(False, item)`
returned, otherwise `(True, item)`.  Also returns the trace of external
calls performed. -/
def download_item (beh : Nat → ItemBehavior) (item : Nat) :
    (Bool × Nat) × List ItemCall :=
  match (beh item).download with
  | .exn _ => ((false, item), [ItemCall.download item])
  | .ok =>
    match (beh item).favorites_del with
    | .exn _ => ((false, item), [ItemCall.download item, ItemCall.favorites_del item])
    | .ok => ((true, item), [ItemCall.download item, ItemCall.favorites_del item])

/-! ## Chunk-structure description of the `batch_download` loop -/

/-- The chunks `tasks[i:i+ebs]` the loop of `batch_download` walks through,
with the effective batch size written `e + 1` and the same structural fuel
as `batchLoop`. -/
def chunksOfSize (e : Nat) : Nat → List Nat → List (List Nat)
  | 0, _ => []
  | _ + 1, [] => []
  | fuel + 1, x :: xs =>
      (x :: xs).take (e + 1) :: chunksOfSize e fuel ((x :: xs).drop (e + 1))

/-- For each chunk, whether the loop runs the inter-chunk cool-down after
it: it does exactly when more tasks remain beyond the chunk. -/
def delaysOfSize (e : Nat) : Nat → List Nat → List Bool
  | 0, _ => []
  | _ + 1, [] => []
  | fuel + 1, x :: xs =>
      decide (e + 1 < (x :: xs).length) :: delaysOfSize e fuel ((x :: xs).drop (e + 1))

lemma runChunk_eq (outcome : Nat → WorkOutcome) (acc : BatchAcc) (c : List Nat) :
    runChunk outcome acc c =
      { acc with
        successful := acc.successful ++ c.filter (fun i => decide (outcome i = WorkOutcome.done true)),
        failed := acc.failed ++ c.filter (fun i => decide (outcome i = WorkOutcome.done false)),
        lastErrorWrites := acc.lastErrorWrites ++
          (c.filter (fun i => decide (outcome i = WorkOutcome.timeout))).map (fun _ => "") } := by
  induction c generalizing acc with
  | nil => simp [runChunk]
  | cons x xs ih =>
    cases h : outcome x with
    | done b =>
      cases b <;>
        simp [runChunk, h, ih, List.filter_cons, List.append_assoc]
    | timeout =>
      simp [runChunk, h, ih, List.filter_cons, List.append_assoc]

lemma batchLoop_nil (outcome : Nat → WorkOutcome) (e n fuel i : Nat) (acc : BatchAcc) :
    batchLoop outcome e n fuel i [] acc = acc := by
  cases fuel <;> rfl

lemma chunksOfSize_nil (e fuel : Nat) : chunksOfSize e fuel [] = [] := by
  cases fuel <;> rfl

lemma delaysOfSize_nil (e fuel : Nat) : delaysOfSize e fuel [] = [] := by
  cases fuel <;> rfl

lemma batchLoop_spec (outcome : Nat → WorkOutcome) (e n : Nat) :
    ∀ fuel rem i acc, rem.length ≤ fuel → i + rem.length = n →
      batchLoop outcome e n fuel i rem acc =
        { successful := acc.successful ++
            rem.filter (fun x => decide (outcome x = WorkOutcome.done true)),
          failed := acc.failed ++
            rem.filter (fun x => decide (outcome x = WorkOutcome.done false)),
          lastErrorWrites := acc.lastErrorWrites ++
            (rem.filter (fun x => decide (outcome x = WorkOutcome.timeout))).map (fun _ => ""),
          chunks := acc.chunks ++ chunksOfSize e fuel rem,
          delays := acc.delays ++ delaysOfSize e fuel rem } := by
  intro fuel
  induction fuel with
  | zero =>
    intro rem i acc hlen _
    have : rem = [] := List.eq_nil_of_length_eq_zero (Nat.le_zero.mp hlen)
    subst this
    simp [batchLoop, chunksOfSize, delaysOfSize]
  | succ fuel ih =>
    intro rem i acc hlen hinv
    cases rem with
    | nil => simp [batchLoop, chunksOfSize, delaysOfSize]
    | cons x xs =>
      rw [batchLoop]
      by_cases hdrop : (x :: xs).drop (e + 1) = []
      · -- the current chunk is the last one: it covers all of `x :: xs`
        have hle : (x :: xs).length ≤ e + 1 := by
          have := List.drop_eq_nil_iff.mp hdrop
          omega
        have htake : (x :: xs).take (e + 1) = x :: xs := List.take_of_length_le hle
        rw [hdrop, batchLoop_nil, runChunk_eq, htake]
        have hdelay : decide (i + (e + 1) < n) = false := by
          simp only [decide_eq_false_iff_not]
          simp only [List.length_cons] at hinv hle
          omega
        rw [chunksOfSize, delaysOfSize, hdrop, chunksOfSize_nil, delaysOfSize_nil, htake]
        have hdelay2 : decide (e + 1 < (x :: xs).length) = false := by
          simp only [decide_eq_false_iff_not]
          simp only [List.length_cons] at hle ⊢
          omega
        rw [hdelay, hdelay2]
      · -- more tasks remain after this chunk
        have hlt : e + 1 < (x :: xs).length := by
          rcases Nat.lt_or_ge (e + 1) ((x :: xs).length) with h | h
          · exact h
          · exact absurd (List.drop_eq_nil_of_le h) hdrop
        have hlen' : ((x :: xs).drop (e + 1)).length ≤ fuel := by
          simp only [List.length_drop, List.length_cons]
          simp only [List.length_cons] at hlen
          omega
        have hinv' : (i + (e + 1)) + ((x :: xs).drop (e + 1)).length = n := by
          simp only [List.length_drop, List.length_cons]
          simp only [List.length_cons] at hinv hlt
          omega
        rw [ih _ _ _ hlen' hinv', runChunk_eq]
        have hdelay : decide (i + (e + 1) < n) = true := by
          simp only [decide_eq_true_eq]
          simp only [List.length_cons] at hinv hlt
          omega
        have hdelay2 : decide (e + 1 < (x :: xs).length) = true := by
          simp only [decide_eq_true_eq]
          exact hlt
        rw [chunksOfSize, delaysOfSize, hdelay, hdelay2]
        have hsplit : ∀ p : Nat → Bool,
            (x :: xs).filter p =
              ((x :: xs).take (e + 1)).filter p ++ ((x :: xs).drop (e + 1)).filter p := by
          intro p
          rw [← List.filter_append, List.take_append_drop]
        simp only [BatchAcc.mk.injEq]
        refine ⟨?_, ?_, ?_, ?_, ?_⟩
        · rw [hsplit]; simp [List.append_assoc]
        · rw [hsplit]; simp [List.append_assoc]
        · rw [hsplit]; simp [List.append_assoc]
        · simp [List.append_assoc]
        · simp [List.append_assoc]

/-- A successful `batch_download` run, fully described: requires a nonzero
worker count and a nonzero effective batch size (otherwise the Python code
raises `ValueError`). -/
lemma batch_download_eq (outcome : Nat → WorkOutcome) (items : List Nat)
    (mw cbs e : Nat) (hmw : mw ≠ 0) (he : min cbs items.length = e + 1) :
    batch_download outcome items mw cbs =
      Except.ok
        { successful := items.filter (fun x => decide (outcome x = WorkOutcome.done true)),
          failed := items.filter (fun x => decide (outcome x = WorkOutcome.done false)),
          lastErrorWrites :=
            (items.filter (fun x => decide (outcome x = WorkOutcome.timeout))).map (fun _ => ""),
          chunks := chunksOfSize e items.length items,
          delays := delaysOfSize e items.length items } := by
  have hred : batch_download outcome items mw cbs =
      Except.ok (batchLoop outcome e items.length items.length 0 items
        { successful := [], failed := [], lastErrorWrites := [], chunks := [], delays := [] }) := by
    rw [batch_download, if_neg hmw, he]
  rw [hred,
    batchLoop_spec outcome e items.length items.length items 0
      { successful := [], failed := [], lastErrorWrites := [], chunks := [], delays := [] }
      (Nat.le_refl _) (by omega)]
  simp

/-- The positive effective batch size exists whenever `items` is non-empty
and the configured chunk size is positive. -/
lemma effective_size_pos (items : List Nat) (cbs : Nat)
    (hne : items ≠ []) (hcbs : 0 < cbs) :
    ∃ e, min cbs items.length = e + 1 := by
  have hpos : 0 < items.length := List.length_pos.mpr hne
  have : 0 < min cbs items.length := by omega
  exact ⟨min cbs items.length - 1, by omega⟩

lemma chunksOfSize_flatten (e : Nat) :
    ∀ fuel l, l.length ≤ fuel → (chunksOfSize e fuel l).flatten = l := by
  intro fuel
  induction fuel with
  | zero =>
    intro l hlen
    have : l = [] := List.eq_nil_of_length_eq_zero (Nat.le_zero.mp hlen)
    subst this; rfl
  | succ fuel ih =>
    intro l hlen
    cases l with
    | nil => rfl
    | cons x xs =>
      have hlen' : ((x :: xs).drop (e + 1)).length ≤ fuel := by
        simp only [List.length_drop, List.length_cons]
        simp only [List.length_cons] at hlen
        omega
      rw [chunksOfSize, List.flatten_cons, ih _ hlen', List.take_append_drop]

lemma chunksOfSize_mem (e : Nat) :
    ∀ fuel l c, c ∈ chunksOfSize e fuel l → c ≠ [] ∧ c.length ≤ e + 1 := by
  intro fuel
  induction fuel with
  | zero => intro l c hc; simp [chunksOfSize] at hc
  | succ fuel ih =>
    intro l c hc
    cases l with
    | nil => simp [chunksOfSize] at hc
    | cons x xs =>
      rw [chunksOfSize, List.mem_cons] at hc
      rcases hc with hc | hc
      · subst hc
        constructor
        · simp [List.take_cons]
        · simp
      · exact ih _ _ hc

lemma chunksOfSize_ne_nil (e fuel : Nat) (l : List Nat)
    (hl : l ≠ []) (hf : 0 < fuel) : chunksOfSize e fuel l ≠ [] := by
  cases fuel with
  | zero => omega
  | succ fuel =>
    cases l with
    | nil => exact absurd rfl hl
    | cons x xs => rw [chunksOfSize]; simp

lemma chunksOfSize_dropLast (e : Nat) :
    ∀ fuel l c, c ∈ (chunksOfSize e fuel l).dropLast → c.length = e + 1 := by
  intro fuel
  induction fuel with
  | zero => intro l c hc; simp [chunksOfSize] at hc
  | succ fuel ih =>
    intro l c hc
    cases l with
    | nil => simp [chunksOfSize] at hc
    | cons x xs =>
      rw [chunksOfSize] at hc
      by_cases hrest : chunksOfSize e fuel ((x :: xs).drop (e + 1)) = []
      · rw [hrest] at hc
        simp at hc
      · rw [List.dropLast_cons_of_ne_nil hrest, List.mem_cons] at hc
        rcases hc with hc | hc
        · subst hc
          have hrem : (x :: xs).drop (e + 1) ≠ [] := by
            intro h
            rw [h, chunksOfSize_nil] at hrest
            exact hrest rfl
          have hlt : e + 1 < (x :: xs).length := by
            rcases Nat.lt_or_ge (e + 1) ((x :: xs).length) with h | h
            · exact h
            · exact absurd (List.drop_eq_nil_of_le h) hrem
          rw [List.length_take]
          simp only [List.length_cons] at hlt ⊢
          omega
        · exact ih _ _ hc

lemma delaysOfSize_eq (e : Nat) :
    ∀ fuel l, l.length ≤ fuel → l ≠ [] →
      delaysOfSize e fuel l =
        List.replicate ((chunksOfSize e fuel l).length - 1) true ++ [false] := by
  intro fuel
  induction fuel with
  | zero =>
    intro l hlen hl
    exact absurd (List.eq_nil_of_length_eq_zero (Nat.le_zero.mp hlen)) hl
  | succ fuel ih =>
    intro l hlen hl
    cases l with
    | nil => exact absurd rfl hl
    | cons x xs =>
      rw [chunksOfSize, delaysOfSize]
      by_cases hrem : (x :: xs).drop (e + 1) = []
      · have hle : (x :: xs).length ≤ e + 1 := by
          have := List.drop_eq_nil_iff.mp hrem
          omega
        rw [hrem, chunksOfSize_nil, delaysOfSize_nil]
        have : decide (e + 1 < (x :: xs).length) = false := by
          simp only [decide_eq_false_iff_not]
          omega
        rw [this]
        simp
      · have hlt : e + 1 < (x :: xs).length := by
          rcases Nat.lt_or_ge (e + 1) ((x :: xs).length) with h | h
          · exact h
          · exact absurd (List.drop_eq_nil_of_le h) hrem
        have hlen' : ((x :: xs).drop (e + 1)).length ≤ fuel := by
          simp only [List.length_drop, List.length_cons]
          simp only [List.length_cons] at hlen
          omega
        have hfuelpos : 0 < fuel := by
          have hpos : 0 < ((x :: xs).drop (e + 1)).length := List.length_pos.mpr hrem
          omega
        have hchne := chunksOfSize_ne_nil e fuel ((x :: xs).drop (e + 1)) hrem hfuelpos
        have hkpos : 0 < (chunksOfSize e fuel ((x :: xs).drop (e + 1))).length :=
          List.length_pos.mpr hchne
        have hd : decide (e + 1 < (x :: xs).length) = true := by
          simp only [decide_eq_true_eq]; exact hlt
        rw [hd, ih _ hlen' hrem]
        simp only [List.length_cons]
        rw [show (chunksOfSize e fuel ((x :: xs).drop (e + 1))).length + 1 - 1
            = ((chunksOfSize e fuel ((x :: xs).drop (e + 1))).length - 1) + 1 from by omega,
          List.replicate_succ]
        simp

/-- every item lands in exactly one of the three outcome classes -/
lemma filter_three_length (outcome : Nat → WorkOutcome) (l : List Nat) :
    (l.filter (fun x => decide (outcome x = WorkOutcome.done true))).length
      + (l.filter (fun x => decide (outcome x = WorkOutcome.done false))).length
      + (l.filter (fun x => decide (outcome x = WorkOutcome.timeout))).length
      = l.length := by
  induction l with
  | nil => simp
  | cons x xs ih =>
    cases h : outcome x with
    | done b => cases b <;> simp [List.filter_cons, h] <;> omega
    | timeout => simp [List.filter_cons, h]; omega

lemma applyBatchWrites_eq (s : AppState) (ws : List String) :
    applyBatchWrites s ws =
      { s with stats := { s.stats with
          last_error := ws.foldl (fun _ w => some w) s.stats.last_error } } := by
  induction ws generalizing s with
  | nil => rfl
  | cons w ws ih =>
    simp only [applyBatchWrites, List.foldl_cons] at ih ⊢
    rw [ih]

/-! ## Pagination lemmas -/

lemma fetch_pages_spec (remote : Nat → Nat → Page) :
    ∀ k fuel j acc,
      (∀ i, i < k → ∃ x xs, remote 50 (50 * (j + i)) = Page.page (x :: xs)) →
      (remote 50 (50 * (j + k)) = Page.page [] ∨
        ∃ m, remote 50 (50 * (j + k)) = Page.exn m) →
      k < fuel →
      unwrapFetch (fetch_pages remote fuel (50 * j) acc) =
        acc ++ ((List.range k).map (fun i => pageItems (remote 50 (50 * (j + i))))).flatten := by
  intro k
  induction k with
  | zero =>
    intro fuel j acc _ hstop hf
    cases fuel with
    | zero => omega
    | succ fuel =>
      rcases hstop with h | ⟨m, h⟩ <;>
        · simp only [Nat.add_zero] at h
          simp [fetch_pages, h, unwrapFetch]
  | succ k ih =>
    intro fuel j acc hpages hstop hf
    cases fuel with
    | zero => omega
    | succ fuel =>
      obtain ⟨x, xs, h0⟩ := hpages 0 (Nat.succ_pos k)
      simp only [Nat.add_zero] at h0
      rw [fetch_pages, h0]
      have hoff : 50 * j + 50 = 50 * (j + 1) := by ring
      rw [hoff]
      have hpages' : ∀ i, i < k → ∃ y ys, remote 50 (50 * ((j + 1) + i)) = Page.page (y :: ys) := by
        intro i hi
        have := hpages (i + 1) (by omega)
        rwa [show j + (i + 1) = (j + 1) + i from by omega] at this
      have hstop' : remote 50 (50 * ((j + 1) + k)) = Page.page [] ∨
          ∃ m, remote 50 (50 * ((j + 1) + k)) = Page.exn m := by
        rwa [show (j + 1) + k = j + (k + 1) from by omega]
      rw [ih fuel (j + 1) (acc ++ (x :: xs)) hpages' hstop' (by omega)]
      rw [List.range_succ_eq_map, List.map_cons, List.flatten_cons, List.map_map]
      have hfun : ((fun i => pageItems (remote 50 (50 * (j + i)))) ∘ (· + 1))
          = fun i => pageItems (remote 50 (50 * ((j + 1) + i))) := by
        funext i
        simp only [Function.comp_apply]
        rw [show j + (i + 1) = (j + 1) + i from by omega]
      rw [hfun]
      simp only [Nat.add_zero, h0, pageItems]
      rw [List.append_assoc]

lemma fetch_calls_spec (remote : Nat → Nat → Page) :
    ∀ k fuel j,
      (∀ i, i < k → ∃ x xs, remote 50 (50 * (j + i)) = Page.page (x :: xs)) →
      (remote 50 (50 * (j + k)) = Page.page [] ∨
        ∃ m, remote 50 (50 * (j + k)) = Page.exn m) →
      k < fuel →
      fetch_calls remote fuel (50 * j) =
        (List.range (k + 1)).map (fun i => (50, 50 * (j + i))) := by
  intro k
  induction k with
  | zero =>
    intro fuel j _ hstop hf
    cases fuel with
    | zero => omega
    | succ fuel =>
      rcases hstop with h | ⟨m, h⟩ <;>
        · simp only [Nat.add_zero] at h
          simp [fetch_calls, h, List.range_succ]
  | succ k ih =>
    intro fuel j hpages hstop hf
    cases fuel with
    | zero => omega
    | succ fuel =>
      obtain ⟨x, xs, h0⟩ := hpages 0 (Nat.succ_pos k)
      simp only [Nat.add_zero] at h0
      rw [fetch_calls, h0]
      have hoff : 50 * j + 50 = 50 * (j + 1) := by ring
      rw [hoff]
      have hpages' : ∀ i, i < k → ∃ y ys, remote 50 (50 * ((j + 1) + i)) = Page.page (y :: ys) := by
        intro i hi
        have := hpages (i + 1) (by omega)
        rwa [show j + (i + 1) = (j + 1) + i from by omega] at this
      have hstop' : remote 50 (50 * ((j + 1) + k)) = Page.page [] ∨
          ∃ m, remote 50 (50 * ((j + 1) + k)) = Page.exn m := by
        rwa [show (j + 1) + k = j + (k + 1) from by omega]
      rw [ih fuel (j + 1) hpages' hstop' (by omega)]
      rw [List.range_succ_eq_map (k + 1), List.map_cons, List.map_map]
      have hfun : ((fun i => ((50 : Nat), 50 * (j + i))) ∘ (· + 1))
          = fun i => ((50 : Nat), 50 * ((j + 1) + i)) := by
        funext i
        simp only [Function.comp_apply]
        rw [show j + (i + 1) = (j + 1) + i from by omega]
      rw [hfun]
      simp

/-! ## Job-controller lemmas -/

/-- Pointwise order on the six cumulative download/failure counters. -/
def statsLe (a b : Stats) : Prop :=
  a.tracks_downloaded ≤ b.tracks_downloaded ∧
  a.albums_downloaded ≤ b.albums_downloaded ∧
  a.artists_downloaded ≤ b.artists_downloaded ∧
  a.tracks_failed ≤ b.tracks_failed ∧
  a.albums_failed ≤ b.albums_failed ∧
  a.artists_failed ≤ b.artists_failed

/-- The `app_state` a `process_favorites` stage leaves behind, whether it
returned normally or raised. -/
def stepState : Except (String × AppState) AppState → AppState
  | .ok s => s
  | .error (_, s) => s

lemma statsLe_refl (a : Stats) : statsLe a a := by
  unfold statsLe; omega

lemma statsLe_trans {a b c : Stats} (h1 : statsLe a b) (h2 : statsLe b c) : statsLe a c := by
  unfold statsLe at *; omega

lemma trackStep_statsLe (cfg : Config) (env : Env) (favs : List Nat) (s : AppState) :
    statsLe s.stats (stepState (trackStep cfg env favs s)).stats := by
  unfold trackStep
  split
  · exact statsLe_refl _
  · split
    · exact statsLe_refl _
    · simp only [stepState, applyBatchWrites_eq]
      unfold statsLe
      simp

lemma albumStep_statsLe (cfg : Config) (env : Env) (favs : List Nat) (s : AppState) :
    statsLe s.stats (stepState (albumStep cfg env favs s)).stats := by
  unfold albumStep
  split
  · exact statsLe_refl _
  · split
    · exact statsLe_refl _
    · simp only [stepState, applyBatchWrites_eq]
      unfold statsLe
      simp

lemma artistStep_statsLe (cfg : Config) (env : Env) (favs : List Nat) (s : AppState) :
    statsLe s.stats (stepState (artistStep cfg env favs s)).stats := by
  unfold artistStep
  split
  · exact statsLe_refl _
  · split
    · exact statsLe_refl _
    · simp only [stepState, applyBatchWrites_eq]
      unfold statsLe
      simp

lemma downloadStages_statsLe (cfg : Config) (env : Env) (favT favA favR : List Nat)
    (t : Nat) (s : AppState) :
    statsLe s.stats (stepState (downloadStages cfg env favT favA favR t s)).stats := by
  have h1 := trackStep_statsLe cfg env favT s
  cases htr : trackStep cfg env favT s with
  | error r =>
    simp only [downloadStages, htr]
    rw [htr] at h1
    exact h1
  | ok s1 =>
    rw [htr] at h1
    simp only [stepState] at h1
    have h2 := albumStep_statsLe cfg env favA s1
    cases hal : albumStep cfg env favA s1 with
    | error r =>
      simp only [downloadStages, htr, hal]
      rw [hal] at h2
      exact statsLe_trans h1 h2
    | ok s2 =>
      rw [hal] at h2
      simp only [stepState] at h2
      have h3 := artistStep_statsLe cfg env favR s2
      cases har : artistStep cfg env favR s2 with
      | error r =>
        simp only [downloadStages, htr, hal, har]
        rw [har] at h3
        exact statsLe_trans h1 (statsLe_trans h2 h3)
      | ok s3 =>
        simp only [downloadStages, htr, hal, har, stepState]
        rw [har] at h3
        simp only [stepState] at h3
        exact statsLe_trans h1 (statsLe_trans h2 h3)

lemma pf_body_statsLe (cfg : Config) (env : Env) (s0 : AppState) :
    statsLe s0.stats (stepState (pf_body cfg env s0)).stats := by
  unfold pf_body
  cases env.authFault with
  | some e => exact statsLe_refl _
  | none =>
    dsimp only
    exact downloadStages_statsLe cfg env
      (get_user_favorites env.remoteTracks env.fetchFuel)
      (get_user_favorites env.remoteAlbums env.fetchFuel)
      (get_user_favorites env.remoteArtists env.fetchFuel)
      env.now
      { last_run := s0.last_run, next_run := s0.next_run,
        current_status := "fetching favorites", stats := s0.stats,
        current_item := s0.current_item,
        favorites_count :=
          { tracks := (get_user_favorites env.remoteTracks env.fetchFuel).length,
            albums := (get_user_favorites env.remoteAlbums env.fetchFuel).length,
            artists := (get_user_favorites env.remoteArtists env.fetchFuel).length } }

lemma process_favorites_statsLe (cfg : Config) (env : Env) (w : World) :
    statsLe w.state.stats (process_favorites cfg env w).state.stats := by
  unfold process_favorites
  have h := pf_body_statsLe cfg env w.state
  cases hpb : pf_body cfg env w.state with
  | ok s =>
    rw [hpb] at h
    simpa [stepState] using h
  | error r =>
    obtain ⟨e, s⟩ := r
    rw [hpb] at h
    simp only [stepState] at h
    simpa [statsLe] using h

lemma process_favorites_job_running (cfg : Config) (env : Env) (w : World) :
    (process_favorites cfg env w).job_running = false := rfl

/-! ## Claim C1 -/

/-- **C1** (corrected).  The claim as stated is false: on the empty input
list (and on a zero worker count or zero chunk size) `batch_download`
raises `ValueError` instead of returning a pair, and an item whose unit
times out is appended to neither list, so the two lengths need not sum to
`len(items)`.  Amended claim, proved here: for every non-empty input list,
positive worker count and positive chunk size, `batch_download` returns a
pair `(succeeded, failed)` of disjoint sublists of the input — `succeeded`
holds exactly the items whose unit reported success and `failed` exactly
those whose unit reported failure — and
`len(succeeded) + len(failed) + (number of timed-out items) = len(items)`;
in particular when no unit times out,
`len(succeeded) + len(failed) = len(items)`. -/
theorem C1_batch_partition (outcome : Nat → WorkOutcome) (items : List Nat)
    (mw cbs : Nat) (hne : items ≠ []) (hmw : 0 < mw) (hcbs : 0 < cbs) :
    ∃ acc, batch_download outcome items mw cbs = Except.ok acc ∧
      acc.successful = items.filter (fun x => decide (outcome x = WorkOutcome.done true)) ∧
      acc.failed = items.filter (fun x => decide (outcome x = WorkOutcome.done false)) ∧
      (∀ i, i ∈ acc.successful → i ∉ acc.failed) ∧
      acc.successful.length + acc.failed.length
          + items.countP (fun x => decide (outcome x = WorkOutcome.timeout))
        = items.length ∧
      ((∀ i ∈ items, outcome i ≠ WorkOutcome.timeout) →
        acc.successful.length + acc.failed.length = items.length) := by
  obtain ⟨e, he⟩ := effective_size_pos items cbs hne hcbs
  refine ⟨_, batch_download_eq outcome items mw cbs e (by omega) he, rfl, rfl, ?_, ?_, ?_⟩
  · intro i hiS hiF
    simp only [List.mem_filter, decide_eq_true_eq] at hiS hiF
    rw [hiS.2] at hiF
    exact absurd hiF.2 (by simp)
  · simp only
    rw [List.countP_eq_length_filter]
    exact filter_three_length outcome items
  · intro hnot
    simp only
    have hzero : (items.filter (fun x => decide (outcome x = WorkOutcome.timeout))).length = 0 := by
      rw [List.length_eq_zero, List.filter_eq_nil_iff]
      intro a ha
      simpa using hnot a ha
    have := filter_three_length outcome items
    omega

/-- Witness for C1 at a concrete input: three items, one of which fails. -/
theorem C1_batch_partition_witness :
    ∃ acc, batch_download (fun i => if i = 2 then WorkOutcome.done false else WorkOutcome.done true)
        [1, 2, 3] 2 2 = Except.ok acc ∧
      acc.successful = [1, 2, 3].filter (fun x => decide
        ((if x = 2 then WorkOutcome.done false else WorkOutcome.done true) = WorkOutcome.done true)) ∧
      acc.failed = [1, 2, 3].filter (fun x => decide
        ((if x = 2 then WorkOutcome.done false else WorkOutcome.done true) = WorkOutcome.done false)) ∧
      (∀ i, i ∈ acc.successful → i ∉ acc.failed) ∧
      acc.successful.length + acc.failed.length
          + [1, 2, 3].countP (fun x => decide
            ((if x = 2 then WorkOutcome.done false else WorkOutcome.done true) = WorkOutcome.timeout))
        = [1, 2, 3].length ∧
      ((∀ i ∈ [1, 2, 3], (if i = 2 then WorkOutcome.done false else WorkOutcome.done true)
          ≠ WorkOutcome.timeout) →
        acc.successful.length + acc.failed.length = [1, 2, 3].length) :=
  C1_batch_partition (fun i => if i = 2 then WorkOutcome.done false else WorkOutcome.done true)
    [1, 2, 3] 2 2 (by decide) (by decide) (by decide)

/-- Counterexample for C1 as stated: on the empty list `batch_download`
raises `ValueError` (the Python `range` step is
`min(current_batch_size, 0) = 0`), so no pair is returned at all; and for
a single item whose unit times out, `len(succeeded) + len(failed) = 0 ≠ 1
= len(items)`. -/
theorem C1_batch_partition_cex :
    batch_download (fun _ => WorkOutcome.done true) [] 1 10
        = Except.error "ValueError: range() arg 3 must not be zero" ∧
    (batch_download (fun _ => WorkOutcome.timeout) [6] 1 10).map
        (fun acc => decide (acc.successful.length + acc.failed.length = [6].length))
      = Except.ok false :=
  ⟨rfl, rfl⟩

/-! ## Claim C4 -/

/-- **C4** (corrected).  The claim as stated is false in two ways: on the
empty input list `batch_download` raises `ValueError` to its caller, and a
per-item timeout error is absorbed without the item being returned in the
failed list.  Amended claim, proved here: for every non-empty input list,
positive worker count and positive chunk size, `batch_download` returns
normally; every in-worker error is absorbed with the item returned in the
failed list; a per-item timeout is also absorbed (one `last_error` write
per timeout), but the timed-out item is returned in neither list. -/
theorem C4_errors_absorbed (outcome : Nat → WorkOutcome) (items : List Nat)
    (mw cbs : Nat) (hne : items ≠ []) (hmw : 0 < mw) (hcbs : 0 < cbs) :
    ∃ acc, batch_download outcome items mw cbs = Except.ok acc ∧
      acc.failed = items.filter (fun x => decide (outcome x = WorkOutcome.done false)) ∧
      (∀ i, i ∈ items → outcome i = WorkOutcome.timeout →
        i ∉ acc.successful ∧ i ∉ acc.failed) ∧
      acc.lastErrorWrites.length
        = items.countP (fun x => decide (outcome x = WorkOutcome.timeout)) := by
  obtain ⟨e, he⟩ := effective_size_pos items cbs hne hcbs
  refine ⟨_, batch_download_eq outcome items mw cbs e (by omega) he, rfl, ?_, ?_⟩
  · intro i _ hto
    constructor
    · simp only [List.mem_filter, decide_eq_true_eq]
      rintro ⟨-, h⟩
      rw [hto] at h
      exact absurd h (by simp)
    · simp only [List.mem_filter, decide_eq_true_eq]
      rintro ⟨-, h⟩
      rw [hto] at h
      exact absurd h (by simp)
  · simp only [List.length_map]
    rw [List.countP_eq_length_filter]

/-- Witness for C4 at a concrete input: one failing item and one
timed-out item. -/
theorem C4_errors_absorbed_witness :
    ∃ acc, batch_download (fun i => if i = 1 then WorkOutcome.done false else WorkOutcome.timeout)
        [1, 4] 1 3 = Except.ok acc ∧
      acc.failed = [1, 4].filter (fun x => decide
        ((if x = 1 then WorkOutcome.done false else WorkOutcome.timeout) = WorkOutcome.done false)) ∧
      (∀ i, i ∈ [1, 4] → (if i = 1 then WorkOutcome.done false else WorkOutcome.timeout)
          = WorkOutcome.timeout → i ∉ acc.successful ∧ i ∉ acc.failed) ∧
      acc.lastErrorWrites.length = [1, 4].countP (fun x => decide
        ((if x = 1 then WorkOutcome.done false else WorkOutcome.timeout) = WorkOutcome.timeout)) :=
  C4_errors_absorbed (fun i => if i = 1 then WorkOutcome.done false else WorkOutcome.timeout)
    [1, 4] 1 3 (by decide) (by decide) (by decide)

/-- Counterexample for C4 as stated: the empty list makes `batch_download`
raise `ValueError`, and a timed-out item (here 7) is absorbed but never
returned in the failed list. -/
theorem C4_errors_absorbed_cex :
    batch_download (fun _ => WorkOutcome.done false) [] 2 10
        = Except.error "ValueError: range() arg 3 must not be zero" ∧
    (batch_download (fun _ => WorkOutcome.timeout) [7] 1 10).map
        (fun acc => decide (7 ∈ acc.failed)) = Except.ok false :=
  ⟨rfl, rfl⟩

/-! ## Claim C5 -/

/-- **C5** (corrected).  The first half of the claim is false: a unit that
exceeds the 600-second timeout makes `future.result` raise, and the
`except` branch only logs and writes `last_error` — the item is appended
to neither `failed_items` nor `successful_items`.  The second half holds.
Amended claim, proved here: a timed-out item is recorded in neither list
(so never in the succeeded list), and the timeout does not abort the
remaining items of the batch — all other items are still classified
normally and every chunk is still processed. -/
theorem C5_timeout_item (outcome : Nat → WorkOutcome) (items : List Nat)
    (mw cbs t : Nat) (hne : items ≠ []) (hmw : 0 < mw) (hcbs : 0 < cbs)
    (ht : t ∈ items) (hto : outcome t = WorkOutcome.timeout) :
    ∃ acc, batch_download outcome items mw cbs = Except.ok acc ∧
      t ∉ acc.successful ∧ t ∉ acc.failed ∧
      acc.successful = items.filter (fun x => decide (outcome x = WorkOutcome.done true)) ∧
      acc.failed = items.filter (fun x => decide (outcome x = WorkOutcome.done false)) ∧
      acc.chunks.flatten = items := by
  obtain ⟨e, he⟩ := effective_size_pos items cbs hne hcbs
  refine ⟨_, batch_download_eq outcome items mw cbs e (by omega) he, ?_, ?_, rfl, rfl, ?_⟩
  · simp only [List.mem_filter, decide_eq_true_eq]
    rintro ⟨-, h⟩
    rw [hto] at h
    exact absurd h (by simp)
  · simp only [List.mem_filter, decide_eq_true_eq]
    rintro ⟨-, h⟩
    rw [hto] at h
    exact absurd h (by simp)
  · exact chunksOfSize_flatten e items.length items (Nat.le_refl _)

/-- Witness for C5 at a concrete input: item 9 times out, item 8 still
succeeds. -/
theorem C5_timeout_item_witness :
    ∃ acc, batch_download (fun i => if i = 9 then WorkOutcome.timeout else WorkOutcome.done true)
        [8, 9] 1 10 = Except.ok acc ∧
      9 ∉ acc.successful ∧ 9 ∉ acc.failed ∧
      acc.successful = [8, 9].filter (fun x => decide
        ((if x = 9 then WorkOutcome.timeout else WorkOutcome.done true) = WorkOutcome.done true)) ∧
      acc.failed = [8, 9].filter (fun x => decide
        ((if x = 9 then WorkOutcome.timeout else WorkOutcome.done true) = WorkOutcome.done false)) ∧
      acc.chunks.flatten = [8, 9] :=
  C5_timeout_item (fun i => if i = 9 then WorkOutcome.timeout else WorkOutcome.done true)
    [8, 9] 1 10 9 (by decide) (by decide) (by decide) (by decide) (by decide)

/-- Counterexample for C5 as stated: the single item 5 times out and is
recorded in neither list — in particular not in the failed list, contrary
to the claim. -/
theorem C5_timeout_item_cex :
    batch_download (fun _ => WorkOutcome.timeout) [5] 1 10 =
      Except.ok { successful := [], failed := [], lastErrorWrites := [""],
                  chunks := [[5]], delays := [false] } ∧
    (batch_download (fun _ => WorkOutcome.timeout) [5] 1 10).map
        (fun acc => decide (5 ∈ acc.failed)) = Except.ok false :=
  ⟨rfl, rfl⟩

/-! ## Claim C7 -/

/-- **C7** (confirmed).  `batch_download` partitions the input into ordered
chunks whose concatenation is exactly the input; every chunk is non-empty
and of size at most `min(chunkSize, len(items))`; every chunk but the last
has size exactly `min(chunkSize, len(items))`; and the cool-down delay
runs after every chunk except the last.  The claim's concrete instance
(25 items, chunk size 10 → chunks 10, 10, 5 with delays only after the
first and second) is checked in the witness. -/
theorem C7_chunking (outcome : Nat → WorkOutcome) (items : List Nat)
    (mw cbs : Nat) (hne : items ≠ []) (hmw : 0 < mw) (hcbs : 0 < cbs) :
    ∃ acc, batch_download outcome items mw cbs = Except.ok acc ∧
      acc.chunks.flatten = items ∧
      (∀ c, c ∈ acc.chunks → c ≠ [] ∧ c.length ≤ min cbs items.length) ∧
      (∀ c, c ∈ acc.chunks.dropLast → c.length = min cbs items.length) ∧
      acc.delays = List.replicate (acc.chunks.length - 1) true ++ [false] := by
  obtain ⟨e, he⟩ := effective_size_pos items cbs hne hcbs
  refine ⟨_, batch_download_eq outcome items mw cbs e (by omega) he, ?_, ?_, ?_, ?_⟩
  · exact chunksOfSize_flatten e items.length items (Nat.le_refl _)
  · intro c hc
    rw [he]
    exact chunksOfSize_mem e items.length items c hc
  · intro c hc
    rw [he]
    exact chunksOfSize_dropLast e items.length items c hc
  · exact delaysOfSize_eq e items.length items (Nat.le_refl _) hne

/-- Witness for C7 at the claim's own instance: 25 items with chunk size
10 produce exactly the chunks of sizes 10, 10, 5, with the cool-down delay
after the first and second chunk only. -/
theorem C7_chunking_witness :
    (∃ acc, batch_download (fun _ => WorkOutcome.done true) (List.range 25) 1 10
        = Except.ok acc ∧
      acc.chunks.flatten = List.range 25 ∧
      (∀ c, c ∈ acc.chunks → c ≠ [] ∧ c.length ≤ min 10 (List.range 25).length) ∧
      (∀ c, c ∈ acc.chunks.dropLast → c.length = min 10 (List.range 25).length) ∧
      acc.delays = List.replicate (acc.chunks.length - 1) true ++ [false]) ∧
    (batch_download (fun _ => WorkOutcome.done true) (List.range 25) 1 10).map
        (fun acc => (acc.chunks.map List.length, acc.delays))
      = Except.ok ([10, 10, 5], [true, true, false]) :=
  ⟨C7_chunking (fun _ => WorkOutcome.done true) (List.range 25) 1 10
      (by decide) (by decide) (by decide),
    rfl⟩

/-! ## Claim C8 -/

/-- **C8** (corrected).  The claim as stated is false: `batch_download`
itself writes `app_state["stats"]["last_error"]` whenever a unit times out
(line 162 of `main.py`), so the Status Store is not written only by the
Job Controller.  Amended claim, proved here: the writes `batch_download`
performs leave every `RunStatus` field unchanged except
`stats.last_error`; when no unit times out, `batch_download` leaves the
Status Store entirely unchanged. -/
theorem C8_executor_frame (outcome : Nat → WorkOutcome) (items : List Nat)
    (mw cbs : Nat) (st : AppState) (acc : BatchAcc)
    (h : batch_download outcome items mw cbs = Except.ok acc) :
    applyBatchWrites st acc.lastErrorWrites =
      { st with stats := { st.stats with
          last_error := acc.lastErrorWrites.foldl (fun _ w => some w) st.stats.last_error } } ∧
    ((∀ i ∈ items, outcome i ≠ WorkOutcome.timeout) →
      applyBatchWrites st acc.lastErrorWrites = st) := by
  refine ⟨applyBatchWrites_eq st acc.lastErrorWrites, ?_⟩
  intro hnot
  by_cases hmw : mw = 0
  · rw [batch_download, if_pos hmw] at h
    exact absurd h (by simp)
  cases hmin : min cbs items.length with
  | zero =>
    rw [batch_download, if_neg hmw, hmin] at h
    exact absurd h (by simp)
  | succ e =>
    rw [batch_download_eq outcome items mw cbs e hmw hmin] at h
    have hacc := Except.ok.inj h
    have hwrites : acc.lastErrorWrites = [] := by
      rw [← hacc]
      simp only
      rw [List.map_eq_nil_iff, List.filter_eq_nil_iff]
      intro a ha
      simpa using hnot a ha
    rw [hwrites]
    rfl

/-- Witness for C8 at a concrete input: a run with no timeouts performs no
`last_error` writes and leaves the initial Status Store unchanged. -/
theorem C8_executor_frame_witness :
    applyBatchWrites initial_app_state
        (BatchAcc.mk [1] [] [] [[1]] [false]).lastErrorWrites =
      { initial_app_state with stats := { initial_app_state.stats with
          last_error := (BatchAcc.mk [1] [] [] [[1]] [false]).lastErrorWrites.foldl
            (fun _ w => some w) initial_app_state.stats.last_error } } ∧
    ((∀ i ∈ [1], (fun (_ : Nat) => WorkOutcome.done true) i ≠ WorkOutcome.timeout) →
      applyBatchWrites initial_app_state
        (BatchAcc.mk [1] [] [] [[1]] [false]).lastErrorWrites = initial_app_state) :=
  C8_executor_frame (fun _ => WorkOutcome.done true) [1] 1 1 initial_app_state
    (BatchAcc.mk [1] [] [] [[1]] [false]) rfl

/-- Counterexample for C8 as stated: with one timed-out item the Executor
itself performs a `last_error` write, and replaying that write changes the
Status Store. -/
theorem C8_executor_frame_cex :
    (batch_download (fun _ => WorkOutcome.timeout) [9] 1 10).map
        (fun acc => acc.lastErrorWrites) = Except.ok [""] ∧
    applyBatchWrites initial_app_state [""] ≠ initial_app_state :=
  ⟨rfl, by decide⟩

/-! ## Claim C2 -/

/-- **C2** (confirmed).  `process_favorites` clears the `job_running` flag
in its `finally` on every exit path (normal completion, partial failure,
or an exception at any stage — all captured by the arbitrary `env`), and a
`job` call either runs and ends with the flag clear, or was skipped
entirely and changed nothing (the skip path of `job` is a pure no-op, so
the only way `job` returns with the flag set is that it never ran). -/
theorem C2_joblock_cleared (cfg : Config) (env : Env) (w : World) :
    (process_favorites cfg env w).job_running = false ∧
    ((job cfg env w).job_running = false ∨ job cfg env w = w) := by
  refine ⟨rfl, ?_⟩
  by_cases hw : w.job_running
  · right
    simp [job, hw]
  · left
    simp [job, hw]

/-! ## Claim C3 -/

/-- Updating `job_running` to `false` on a world whose flag is already
`false` is the identity. -/
lemma World_set_false (w : World) (h : w.job_running = false) :
    ({ w with job_running := false } : World) = w := by
  cases w
  simp_all

/-- **C3** (confirmed).  When the `job_running` flag is set, `job` returns
without mutating anything (in particular no Status Store field), and the
manual trigger replies `409 {success:false}` with the world — Status Store
included — unchanged; when the flag is clear, the trigger replies
`200 {success:true}` and the started run is exactly a `process_favorites`
run under the flag. -/
theorem C3_trigger_busy (cfg : Config) (env : Env) (w : World) :
    (w.job_running = true →
      job cfg env w = w ∧ trigger_job cfg env w = ((409, false), w)) ∧
    (w.job_running = false →
      trigger_job cfg env w
        = ((200, true), process_favorites cfg env { w with job_running := true })) := by
  constructor
  · intro hw
    constructor
    · simp [job, hw]
    · simp [trigger_job, hw]
  · intro hw
    have hjob : job cfg env w = process_favorites cfg env { w with job_running := true } := by
      simp only [job, hw, Bool.false_eq_true, if_false]
      exact World_set_false _ (process_favorites_job_running _ _ _)
    simp [trigger_job, hw, hjob]

/-- A concrete configuration for witnesses: the defaults of `main.py`. -/
def cfg0 : Config :=
  { max_workers_tracks := 1, max_workers_albums := 1,
    max_workers_artists := 1, batch_size := 10 }

/-- A concrete environment for witnesses: authentication fails, the remote
catalog is empty, every worker succeeds. -/
def env0 : Env :=
  { authFault := some "Authentication error"
    remoteTracks := fun _ _ => Page.page []
    remoteAlbums := fun _ _ => Page.page []
    remoteArtists := fun _ _ => Page.page []
    fetchFuel := 1
    outcomeTracks := fun _ => WorkOutcome.done true
    outcomeAlbums := fun _ => WorkOutcome.done true
    outcomeArtists := fun _ => WorkOutcome.done true
    now := 1700000000 }

/-- Witness for C3 at a concrete busy world: the skipped `job` is the
identity and the trigger replies 409 without mutating anything. -/
theorem C3_trigger_busy_witness :
    job cfg0 env0 { state := initial_app_state, job_running := true }
        = { state := initial_app_state, job_running := true } ∧
    trigger_job cfg0 env0 { state := initial_app_state, job_running := true }
        = ((409, false), { state := initial_app_state, job_running := true }) :=
  (C3_trigger_busy cfg0 env0 { state := initial_app_state, job_running := true }).1 rfl

/-! ## Claim C6 -/

/-- **C6** (confirmed).  Under the (implicit) premise of the claim that the
remote eventually returns an empty page or raises — request index `k` —
and given enough loop fuel, `get_user_favorites` returns (never raising,
by construction of the `except` handler modelled by `unwrapFetch`) a list
whose length is the sum of the lengths of the non-empty pages retrieved
before that first empty page or error, and the requests it makes are
exactly `limit = 50` at offsets `0, 50, 100, …, 50 k`. -/
theorem C6_fetch_pagination (remote : Nat → Nat → Page) (k fuel : Nat)
    (h : stopsAt remote k) (hf : k < fuel) :
    (get_user_favorites remote fuel).length
      = ((List.range k).map (fun i => (pageItems (remote 50 (50 * i))).length)).sum ∧
    fetch_calls remote fuel 0 = (List.range (k + 1)).map (fun i => (50, 50 * i)) := by
  obtain ⟨hpages, hstop⟩ := h
  constructor
  · have hspec := fetch_pages_spec remote k fuel 0 []
      (by intro i hi; simpa using hpages i hi)
      (by simpa using hstop) hf
    simp only [Nat.mul_zero, Nat.zero_add] at hspec
    rw [get_user_favorites, hspec]
    simp [List.length_flatten, List.map_map, Function.comp_def]
  · have hcalls := fetch_calls_spec remote k fuel 0
      (by intro i hi; simpa using hpages i hi)
      (by simpa using hstop) hf
    simp only [Nat.mul_zero, Nat.zero_add] at hcalls
    exact hcalls

/-- The remote catalog used in the C6 witness: a page of three items, a
page of one item, then exhaustion. -/
def remoteW : Nat → Nat → Page := fun _ offset =>
  if offset = 0 then Page.page [10, 11, 12]
  else if offset = 50 then Page.page [20]
  else Page.page []

/-- Witness for C6 at a concrete remote: 3 + 1 favorites over two
non-empty pages, requested at offsets 0, 50, 100. -/
theorem C6_fetch_pagination_witness :
    (get_user_favorites remoteW 5).length
      = ((List.range 2).map (fun i => (pageItems (remoteW 50 (50 * i))).length)).sum ∧
    fetch_calls remoteW 5 0 = (List.range (2 + 1)).map (fun i => (50, 50 * i)) := by
  have hs : stopsAt remoteW 2 := by
    constructor
    · intro j hj
      interval_cases j
      · exact ⟨10, [11, 12], rfl⟩
      · exact ⟨20, [], rfl⟩
    · exact Or.inl rfl
  exact C6_fetch_pagination remoteW 2 5 hs (by omega)

/-! ## Claim C9 -/

/-- **C9** (confirmed).  The six per-category counters of
`app_state["stats"]` are only ever updated with `+=` by
`process_favorites` and are never reset by any modelled operation
(`process_favorites`, `job`, the manual trigger), so each counter is
monotonically non-decreasing across successive runs: a later run reports
lifetime totals. -/
theorem C9_stats_monotone (cfg : Config) (env : Env) (w : World) :
    statsLe w.state.stats (process_favorites cfg env w).state.stats ∧
    statsLe w.state.stats (job cfg env w).state.stats ∧
    statsLe w.state.stats ((trigger_job cfg env w).2).state.stats := by
  have hjob : statsLe w.state.stats (job cfg env w).state.stats := by
    by_cases hw : w.job_running
    · simp only [job, hw, if_true]
      exact statsLe_refl _
    · simp only [job, hw, Bool.false_eq_true, if_false]
      exact process_favorites_statsLe cfg env { w with job_running := true }
  refine ⟨process_favorites_statsLe cfg env w, hjob, ?_⟩
  by_cases hw : w.job_running
  · simp only [trigger_job, hw, if_true]
    exact statsLe_refl _
  · simp only [trigger_job, hw, Bool.false_eq_true, if_false]
    exact hjob

/-! ## Claim C10 -/

/-- **C10** (confirmed).  `download_item` reports `(True, item)` exactly
when both `download_from_id` and `favorites_del` return without exception;
it always carries the item back; the favorites removal is attempted
(appears in the call trace, after the download) exactly when the download
returned without exception; and in every other case — including a
successful download followed by a failing removal — it reports
`(False, item)`, counting the item as failed. -/
theorem C10_download_item (beh : Nat → ItemBehavior) (item : Nat) :
    ((download_item beh item).1 = (true, item) ↔
      (beh item).download = CallOutcome.ok ∧ (beh item).favorites_del = CallOutcome.ok) ∧
    ((download_item beh item).1.2 = item) ∧
    ((download_item beh item).2 = ItemCall.download item ::
      (if (beh item).download = CallOutcome.ok then [ItemCall.favorites_del item] else [])) ∧
    ((download_item beh item).1.1 = false ↔
      ¬((beh item).download = CallOutcome.ok ∧ (beh item).favorites_del = CallOutcome.ok)) := by
  cases hd : (beh item).download with
  | exn m =>
    simp [download_item, hd]
  | ok =>
    cases hr : (beh item).favorites_del <;> simp [download_item, hd, hr]

end QobuzFav
